import Mathlib

/-!
Verification development for the JD2RoboticArm SCARA controller core
(`Final_Code/gcode_parser.py`, `Final_Code/kinematics.py`,
`Final_Code/sd_exporter.py`, `Final_Code/config.py`).

Modelling conventions:
* Python strings are modelled as `List Char`; the helper functions below
  reproduce the string operations the source uses (`strip`, `upper`,
  `split`, `split(';')`, `split('\n')`).
* Python float values coming out of `float(...)` are modelled by `PyLit`:
  either an exact rational (`fin`), an infinity, or `nan`. Arithmetic inside
  the machine state is carried out over `ℚ` (machine state holding a
  non-finite coordinate is excluded from the model: commands reject a
  non-finite parameter at the point of use, where CPython would raise at the
  first `int(...)` conversion touching the propagated value).
* Geometry (kinematics and interpolation) is carried out over `ℝ`;
  `math.atan2`, `math.sqrt`, `math.acos`, `math.sin`, `math.cos` become
  their exact real counterparts.
* Python `int(...)` truncation and `round(...)` (banker's rounding) are
  modelled by `pyInt` and `pyRound`.
-/

/-! Python string primitives -/

def pyIsSpace (c : Char) : Bool :=
  c = ' ' ∨ c = '\t' ∨ c = '\n' ∨ c = '\r' ∨ c = '\x0b' ∨ c = '\x0c'

/-- Python `str.strip()`. -/
def pyStrip (s : List Char) : List Char :=
  ((s.dropWhile pyIsSpace).reverse.dropWhile pyIsSpace).reverse

/-- Python `str.upper()` (ASCII fragment, which is all the source feeds it). -/
def pyUpper (s : List Char) : List Char := s.map Char.toUpper

/-- Python `str.split()` (split on whitespace runs, dropping empty pieces). -/
def pySplitWs (s : List Char) : List (List Char) :=
  (s.foldr
    (fun c acc =>
      if pyIsSpace c then [] :: acc
      else
        match acc with
        | [] => [[c]]
        | w :: ws => (c :: w) :: ws)
    []).filter (· ≠ [])

/-- Python `str.split(sep)` for a one-character separator (keeps empties). -/
def pySplitOn (sep : Char) (s : List Char) : List (List Char) :=
  s.foldr
    (fun c acc =>
      if c = sep then [] :: acc
      else
        match acc with
        | [] => [[c]]
        | w :: ws => (c :: w) :: ws)
    [[]]

/-! Python float literals

`float(token)` on an upper-cased token: accepts signed decimal/scientific
literals and the special words INF, INFINITY, NAN, producing either a finite
value (modelled exactly as a rational) or a non-finite float. -/

inductive PyLit where
  | fin (num : ℤ) (den10 : ℕ)
  | inf
  | neginf
  | nan
deriving DecidableEq, Repr

/-- Exact rational value of a finite literal: `num / 10 ^ den10`.
(The pair is a syntactic decimal representation, kept unevaluated so that
parsing stays kernel-computable; the value enters `ℚ` arithmetic here.) -/
def finVal (num : ℤ) (den10 : ℕ) : ℚ := (num : ℚ) / 10 ^ den10

def PyLit.neg : PyLit → PyLit
  | .fin n d => .fin (-n) d
  | .inf => .neginf
  | .neginf => .inf
  | .nan => .nan

def pyIsDigit (c : Char) : Bool := '0' ≤ c ∧ c ≤ '9'

def digitsToNat (ds : List Char) : ℕ :=
  ds.foldl (fun a c => 10 * a + (c.toNat - 48)) 0

/-- Finite literal with decimal mantissa `ip . fp` and decimal exponent `e`:
its value is `digits(ip ++ fp) * 10 ^ (e - length fp)`. -/
def mkFin (ip fp : List Char) (e : ℤ) : PyLit :=
  let m : ℤ := (digitsToNat (ip ++ fp) : ℤ)
  let sexp : ℤ := e - (fp.length : ℤ)
  if 0 ≤ sexp then .fin (m * 10 ^ sexp.toNat) 0 else .fin m (-sexp).toNat

def readExpSign : List Char → ℤ × List Char
  | '+' :: r => (1, r)
  | '-' :: r => (-1, r)
  | s => (1, s)

/-- Unsigned body of a Python float literal (input already upper-cased). -/
def pyFloatBody? (s : List Char) : Option PyLit :=
  if s = ['I', 'N', 'F'] ∨ s = ['I', 'N', 'F', 'I', 'N', 'I', 'T', 'Y'] then
    some .inf
  else if s = ['N', 'A', 'N'] then
    some .nan
  else
    let ip := s.takeWhile pyIsDigit
    let s1 := s.dropWhile pyIsDigit
    let fp :=
      match s1 with
      | '.' :: rest => rest.takeWhile pyIsDigit
      | _ => []
    let s2 :=
      match s1 with
      | '.' :: rest => rest.dropWhile pyIsDigit
      | _ => s1
    if ip = [] ∧ fp = [] then none
    else
      match s2 with
      | [] => some (mkFin ip fp 0)
      | 'E' :: es =>
        let sg := (readExpSign es).1
        let es1 := (readExpSign es).2
        let ed := es1.takeWhile pyIsDigit
        let es2 := es1.dropWhile pyIsDigit
        if ed = [] ∨ es2 ≠ [] then none
        else some (mkFin ip fp (sg * (digitsToNat ed : ℤ)))
      | _ => none

/-- Python `float(token)` as used on parameter tails (returns `none` where
Python would raise `ValueError`, which the parser catches and drops). -/
def pyFloat? (s : List Char) : Option PyLit :=
  match s with
  | '+' :: r => pyFloatBody? r
  | '-' :: r => (pyFloatBody? r).map PyLit.neg
  | _ => pyFloatBody? s

/-! Parsed commands (`GCodeParser.parse_line`) -/

abbrev Params := List (Char × PyLit)

def lookupParam (ps : Params) (k : Char) : Option PyLit :=
  match ps with
  | [] => none
  | (k', v) :: rest => if k' = k then some v else lookupParam rest k

/-- Dict assignment `params[key] = value` (overwrite or append). -/
def insertParam (ps : Params) (k : Char) (v : PyLit) : Params :=
  if ps.any (fun kv => kv.1 = k) then
    ps.map (fun kv => if kv.1 = k then (k, v) else kv)
  else ps ++ [(k, v)]

structure ParsedCommand where
  command : List Char
  params : Params
  raw : List Char
deriving DecidableEq, Repr

/-- Model of `GCodeParser.parse_line`: strip the `;` comment, skip blank lines,
upper-case and whitespace-split, first token is the command, remaining
tokens of length ≥ 2 are split into a one-letter key and a float tail
(tokens whose tail does not parse are silently dropped). -/
def parse_line (line0 : List Char) : Option ParsedCommand :=
  let line := pyStrip (line0.takeWhile (· ≠ ';'))
  if line = [] then none
  else
    match pySplitWs (pyUpper line) with
    | [] => none
    | command :: rest =>
      let params := rest.foldl
        (fun acc part =>
          if 2 ≤ part.length then
            match part.head?, pyFloat? part.tail with
            | some k, some v => insertParam acc k v
            | _, _ => acc
          else acc)
        []
      some ⟨command, params, line⟩

/-! Configuration constants (`config.py`) -/

def HOME_X : ℚ := 6
def HOME_Y : ℚ := 6
def DEFAULT_FEED_RATE : ℚ := 2
def MAX_FEED_RATE : ℚ := 10
def ARC_SEGMENTS_PER_INCH : ℚ := 10
def SERVO1_HOME : ℤ := 75
def SERVO2_HOME : ℤ := 120

/-! Parser machine state (`GCodeParser.__init__`) -/

structure ParserState where
  absolute_mode : Bool
  units : List Char
  current_pos : ℚ × ℚ
  offset : ℚ × ℚ
  feed_rate : ℚ
  home_pos : ℚ × ℚ
  command_count : ℕ
deriving DecidableEq, Repr

def initState : ParserState :=
  { absolute_mode := true
    units := "inches".toList
    current_pos := (HOME_X, HOME_Y)
    offset := (0, 0)
    feed_rate := DEFAULT_FEED_RATE
    home_pos := (HOME_X, HOME_Y)
    command_count := 0 }

/-- Model of `GCodeParser.get_current_position` (position after offset). -/
def get_current_position (st : ParserState) : ℚ × ℚ :=
  (st.current_pos.1 - st.offset.1, st.current_pos.2 - st.offset.2)

/-! Real-valued primitives and geometry (`kinematics.py`) -/

noncomputable section

/-- Python `int(x)` on a float: truncation toward zero. -/
def pyInt (x : ℝ) : ℤ := if 0 ≤ x then ⌊x⌋ else ⌈x⌉

/-- Python 3 `round(x)` on a float: round half to even. -/
def pyRound (x : ℝ) : ℤ :=
  if Int.fract x = 1 / 2 then 2 * round (x / 2) else round x

/-- Model of `math.atan2 y x` (note the argument order), with `atan2 0 0 = 0`
exactly as in CPython. -/
def atan2 (y x : ℝ) : ℝ := Complex.arg ⟨x, y⟩

/-- Model of `math.degrees`. -/
def degrees (x : ℝ) : ℝ := x * 180 / Real.pi

/-- Model of `math.radians`. -/
def radians (x : ℝ) : ℝ := x * Real.pi / 180

/-! `config.py` arm and servo constants over the reals. -/

def ARM_L1 : ℝ := 6
def ARM_L2 : ℝ := 6
def SERVO1_MIN : ℝ := 0
def SERVO1_MAX : ℝ := 180
def SERVO2_MIN : ℝ := 0
def SERVO2_MAX : ℝ := 180
def SERVO1_OFFSET : ℝ := 0
def SERVO2_OFFSET : ℝ := 0

/-- Model of `SCARAKinematics.max_reach`. -/
def max_reach (L1 L2 : ℝ) : ℝ := L1 + L2

/-- Model of `SCARAKinematics.min_reach`. -/
def min_reach (L1 L2 : ℝ) : ℝ := |L1 - L2|

inductive IKError where
  | outOfReach
  | tooClose
deriving DecidableEq, Repr

/-- Model of `SCARAKinematics.inverse_kinematics`. The two `ValueError` raises are
modelled as the two `IKError` kinds. -/
def inverse_kinematics (L1 L2 x y : ℝ) (elbow_up : Bool) : Except IKError (ℝ × ℝ) :=
  let r := Real.sqrt (x ^ 2 + y ^ 2)
  if r > max_reach L1 L2 then .error .outOfReach
  else if r < min_reach L1 L2 then .error .tooClose
  else if r < 0.001 then .ok (0, 0)
  else
    let cos_theta2 := (x ^ 2 + y ^ 2 - L1 ^ 2 - L2 ^ 2) / (2 * L1 * L2)
    let cos_theta2 := max (-1) (min 1 cos_theta2)
    let theta2 := if elbow_up then Real.arccos cos_theta2 else -Real.arccos cos_theta2
    let k1 := L1 + L2 * Real.cos theta2
    let k2 := L2 * Real.sin theta2
    let theta1 := atan2 y x - atan2 k2 k1
    .ok (degrees theta1, degrees theta2)

/-- Model of `SCARAKinematics.forward_kinematics`. -/
def forward_kinematics (L1 L2 theta1_deg theta2_deg : ℝ) : ℝ × ℝ :=
  let theta1 := radians theta1_deg
  let theta2 := radians theta2_deg
  let elbow_x := L1 * Real.cos theta1
  let elbow_y := L1 * Real.sin theta1
  (elbow_x + L2 * Real.cos (theta1 + theta2), elbow_y + L2 * Real.sin (theta1 + theta2))

/-- Model of `SCARAKinematics.is_reachable`. -/
def is_reachable (L1 L2 x y : ℝ) : Prop :=
  min_reach L1 L2 ≤ Real.sqrt (x ^ 2 + y ^ 2) ∧
    Real.sqrt (x ^ 2 + y ^ 2) ≤ max_reach L1 L2

/-! Interpolators (`kinematics.py`, utility functions) -/

/-- Model of `interpolate_line`: `n+1` waypoints at uniform parameter, where
`n = max(2, int(distance * segments_per_inch))`. -/
def interpolate_line (x_start y_start x_end y_end : ℝ)
    (segments_per_inch : ℝ) : List (ℝ × ℝ) :=
  let distance := Real.sqrt ((x_end - x_start) ^ 2 + (y_end - y_start) ^ 2)
  let num_segments := (max 2 (pyInt (distance * segments_per_inch))).toNat
  (List.range (num_segments + 1)).map fun (i : ℕ) =>
    let t : ℝ := (i : ℝ) / (num_segments : ℝ)
    (x_start + t * (x_end - x_start), y_start + t * (y_end - y_start))

/-- Start angle of the arc (`math.atan2(y_start - y_center, x_start - x_center)`). -/
def arcStartAngle (x_start y_start x_center y_center : ℝ) : ℝ :=
  atan2 (y_start - y_center) (x_start - x_center)

/-- End angle of the arc. -/
def arcEndAngle (x_end y_end x_center y_center : ℝ) : ℝ :=
  atan2 (y_end - y_center) (x_end - x_center)

/-- Arc radius, computed from the start point only. -/
def arcRadius (x_start y_start x_center y_center : ℝ) : ℝ :=
  Real.sqrt ((x_start - x_center) ^ 2 + (y_start - y_center) ^ 2)

/-- Signed sweep angle of `interpolate_arc`: direction-corrected so that a
clockwise arc sweeps non-positively and a counter-clockwise arc
non-negatively. -/
def arcSweep (x_start y_start x_end y_end x_center y_center : ℝ)
    (clockwise : Bool) : ℝ :=
  let start_angle := arcStartAngle x_start y_start x_center y_center
  let end_angle := arcEndAngle x_end y_end x_center y_center
  if clockwise then
    if end_angle > start_angle then end_angle - start_angle - 2 * Real.pi
    else end_angle - start_angle
  else
    if end_angle < start_angle then end_angle - start_angle + 2 * Real.pi
    else end_angle - start_angle

/-- Segment count `num_segments = max(4, int(arc_length * segments_per_inch))` with
`arc_length = abs(radius * sweep)`. -/
def arcNumSegments (x_start y_start x_end y_end x_center y_center : ℝ)
    (clockwise : Bool) (segments_per_inch : ℝ) : ℕ :=
  let radius := arcRadius x_start y_start x_center y_center
  let sweep := arcSweep x_start y_start x_end y_end x_center y_center clockwise
  let arc_length := |radius * sweep|
  (max 4 (pyInt (arc_length * segments_per_inch))).toNat

/-- Angle of the `i`-th waypoint: `start_angle + (i / num_segments) * sweep`. -/
def arcAngle (x_start y_start x_end y_end x_center y_center : ℝ)
    (clockwise : Bool) (segments_per_inch : ℝ) (i : ℕ) : ℝ :=
  arcStartAngle x_start y_start x_center y_center +
    ((i : ℝ) /
        (arcNumSegments x_start y_start x_end y_end x_center y_center clockwise
            segments_per_inch : ℝ)) *
      arcSweep x_start y_start x_end y_end x_center y_center clockwise

/-- Model of `interpolate_arc`: waypoints on the circle of `arcRadius` about the
center, at the linearly interpolated angles. -/
def interpolate_arc (x_start y_start x_end y_end x_center y_center : ℝ)
    (clockwise : Bool) (segments_per_inch : ℝ) : List (ℝ × ℝ) :=
  let radius := arcRadius x_start y_start x_center y_center
  let n := arcNumSegments x_start y_start x_end y_end x_center y_center
    clockwise segments_per_inch
  (List.range (n + 1)).map fun (i : ℕ) =>
    let angle := arcAngle x_start y_start x_end y_end x_center y_center
      clockwise segments_per_inch i
    (x_center + radius * Real.cos angle, y_center + radius * Real.sin angle)

end

/-! Command execution (`GCodeParser.execute_command`)

`execute_command` can raise in CPython: a non-finite parameter value
(`float("nan")`, `float("inf")`, or an overflowed literal) reaching an
`int(...)` conversion raises `ValueError`/`OverflowError` (directly for
`M6`, inside the interpolators' `int(distance * density)` for motion
commands). The model surfaces this as `Except.error ()`; it rejects a
non-finite parameter at the point of use (for `G92`, CPython would instead
store the non-finite offset and raise at the next motion command, a state
this `ℚ`-valued model does not represent). -/

noncomputable section

inductive ExecResult where
  | moveLinear (waypoints : List (ℝ × ℝ)) (speed : ℚ) (rapid : Bool)
  | moveArc (waypoints : List (ℝ × ℝ)) (center : ℚ × ℚ) (speed : ℚ)
      (clockwise : Bool)
  | dwell (duration : PyLit)
  | unitsSet (u : List Char)
  | modeSet (absolute : Bool)
  | homeMove (waypoints : List (ℝ × ℝ)) (home : ℚ × ℚ)
  | homeIntermediate (intermediateX intermediateY : Option PyLit) (home : ℚ × ℚ)
  | setPositionClear
  | setPositionSet (new_position : ℚ × ℚ) (offset : ℚ × ℚ)
  | toolChange (tool : ℤ)
  | progEnd
  | unknown (raw : List Char)

/-- Read a parameter as a finite value with a default (`params.get(k, d)`
followed by arithmetic use); a non-finite value is rejected. -/
def getFin (ps : Params) (k : Char) (dflt : ℚ) : Except Unit ℚ :=
  match lookupParam ps k with
  | none => .ok dflt
  | some (.fin n d) => .ok (finVal n d)
  | some _ => .error ()

/-- Target resolution shared by G0/G1/G2/G3: absolute mode takes the
parameter (default: current coordinate); incremental mode adds the
parameter (default 0) to the current coordinate. -/
def resolveTarget (st : ParserState) (ps : Params) : Except Unit (ℚ × ℚ) := do
  if st.absolute_mode then
    pure (← getFin ps 'X' st.current_pos.1, ← getFin ps 'Y' st.current_pos.2)
  else
    pure (st.current_pos.1 + (← getFin ps 'X' 0),
      st.current_pos.2 + (← getFin ps 'Y' 0))

/-- Feed update `if 'F' in params: feed_rate = min(F, MAX_FEED_RATE)`. A `nan`/`-inf`
feed would poison the stored feed rate without raising; the model leaves
the feed rate unchanged in that excluded corner. -/
def updateFeed (st : ParserState) (ps : Params) : ParserState :=
  match lookupParam ps 'F' with
  | some (.fin n d) => { st with feed_rate := min (finVal n d) MAX_FEED_RATE }
  | some .inf => { st with feed_rate := MAX_FEED_RATE }
  | _ => st

/-- Model of `GCodeParser._process_linear_move`. -/
def processLinearMove (st : ParserState) (ps : Params) (rapid : Bool) :
    Except Unit (ParserState × ExecResult) := do
  let ext ← resolveTarget st ps
  let target : ℚ × ℚ := (ext.1 - st.offset.1, ext.2 - st.offset.2)
  let st1 := updateFeed st ps
  let speed := if rapid then MAX_FEED_RATE else st1.feed_rate
  let waypoints := interpolate_line (st1.current_pos.1 : ℝ) (st1.current_pos.2 : ℝ)
    (target.1 : ℝ) (target.2 : ℝ) 5
  pure ({ st1 with current_pos := target }, .moveLinear waypoints speed rapid)

/-- Model of `GCodeParser._process_arc_move`. -/
def processArcMove (st : ParserState) (ps : Params) (clockwise : Bool) :
    Except Unit (ParserState × ExecResult) := do
  let ext ← resolveTarget st ps
  let target : ℚ × ℚ := (ext.1 - st.offset.1, ext.2 - st.offset.2)
  let i ← getFin ps 'I' 0
  let j ← getFin ps 'J' 0
  let center : ℚ × ℚ := (st.current_pos.1 + i, st.current_pos.2 + j)
  let st1 := updateFeed st ps
  let waypoints := interpolate_arc (st1.current_pos.1 : ℝ) (st1.current_pos.2 : ℝ)
    (target.1 : ℝ) (target.2 : ℝ) (center.1 : ℝ) (center.2 : ℝ) clockwise
    (ARC_SEGMENTS_PER_INCH : ℝ)
  pure ({ st1 with current_pos := target },
    .moveArc waypoints center st1.feed_rate clockwise)

/-- Model of `GCodeParser._process_home`: with `X`/`Y` present, a pass-through result
with no waypoints and no state change (the intermediate point is carried as
the raw parameters; a missing axis defaults to the current coordinate);
otherwise interpolate to the home position (note: the `G92` offset is not
applied on this path). -/
def processHome (st : ParserState) (ps : Params) :
    ParserState × ExecResult :=
  if (lookupParam ps 'X').isSome ∨ (lookupParam ps 'Y').isSome then
    (st, .homeIntermediate (lookupParam ps 'X') (lookupParam ps 'Y') st.home_pos)
  else
    let waypoints := interpolate_line (st.current_pos.1 : ℝ) (st.current_pos.2 : ℝ)
      (st.home_pos.1 : ℝ) (st.home_pos.2 : ℝ) 5
    ({ st with current_pos := st.home_pos }, .homeMove waypoints st.home_pos)

/-- Model of `GCodeParser._process_set_position`: empty parameter dict clears the
offset; otherwise `offset := current_pos - requested` with missing axes
defaulting to the (internal) current coordinate. -/
def processSetPosition (st : ParserState) (ps : Params) :
    Except Unit (ParserState × ExecResult) := do
  if ps = [] then
    pure ({ st with offset := (0, 0) }, .setPositionClear)
  else
    let nx ← getFin ps 'X' st.current_pos.1
    let ny ← getFin ps 'Y' st.current_pos.2
    let off : ℚ × ℚ := (st.current_pos.1 - nx, st.current_pos.2 - ny)
    pure ({ st with offset := off }, .setPositionSet (nx, ny) off)

/-- Dispatch on the command code (body of `GCodeParser.execute_command`
after the `command_count` increment); unrecognized codes yield `unknown`. -/
def executeDispatch (st : ParserState) (c : ParsedCommand) :
    Except Unit (ParserState × ExecResult) :=
  if c.command = "G0".toList then processLinearMove st c.params true
  else if c.command = "G1".toList then processLinearMove st c.params false
  else if c.command = "G2".toList then processArcMove st c.params true
  else if c.command = "G3".toList then processArcMove st c.params false
  else if c.command = "G4".toList then
    .ok (st, .dwell ((lookupParam c.params 'P').getD (.fin 0 0)))
  else if c.command = "G20".toList then
    .ok ({ st with units := "inches".toList }, .unitsSet "inches".toList)
  else if c.command = "G21".toList then
    .ok ({ st with units := "mm".toList }, .unitsSet "mm".toList)
  else if c.command = "G28".toList then .ok (processHome st c.params)
  else if c.command = "G90".toList then
    .ok ({ st with absolute_mode := true }, .modeSet true)
  else if c.command = "G91".toList then
    .ok ({ st with absolute_mode := false }, .modeSet false)
  else if c.command = "G92".toList then processSetPosition st c.params
  else if c.command = "M2".toList then .ok (st, .progEnd)
  else if c.command = "M6".toList then
    match lookupParam c.params 'T' with
    | none => .ok (st, .toolChange 0)
    | some (.fin n d) => .ok (st, .toolChange (pyInt ((finVal n d : ℚ) : ℝ)))
    | some _ => .error ()
  else .ok (st, .unknown c.raw)

/-- Model of `GCodeParser.execute_command`: increment the command counter, then
dispatch. -/
def execute_command (st0 : ParserState) (c : ParsedCommand) :
    Except Unit (ParserState × ExecResult) :=
  executeDispatch { st0 with command_count := st0.command_count + 1 } c

end

/-! Waypoint-to-actuator pipeline (`sd_exporter.py`, `config.py`) -/

noncomputable section

/-- Model of `config.constrain_servo_angle`. -/
def constrain_servo_angle (angle : ℝ) (servo_num : ℕ) : ℝ :=
  if servo_num = 1 then max SERVO1_MIN (min SERVO1_MAX angle)
  else max SERVO2_MIN (min SERVO2_MAX angle)

/-- Model of `config.apply_servo_offset`. -/
def apply_servo_offset (angle1 angle2 : ℝ) : ℝ × ℝ :=
  (constrain_servo_angle (angle1 + SERVO1_OFFSET) 1,
    constrain_servo_angle (angle2 + SERVO2_OFFSET) 2)

/-- An entry of `SDCardExporter.error_log` (the Python code stores a
formatted message; the model keeps the data the message is built from). -/
inductive ErrEntry where
  | ikErr (line_num : ℕ) (x y : ℝ) (e : IKError)
  | lineErr (line_num : ℕ) (raw : List Char)

structure ExporterState where
  ps : ParserState
  angles : List (ℤ × ℤ)
  errors : List ErrEntry

/-- Per-waypoint loop of `SDCardExporter.process_gcode`: inverse kinematics,
calibration offset, clamp, round; on `ValueError` log the line number and
the offending coordinates and skip only that point. -/
def processWaypoints (line_num : ℕ) (ws : List (ℝ × ℝ))
    (angles : List (ℤ × ℤ)) (errors : List ErrEntry) :
    List (ℤ × ℤ) × List ErrEntry :=
  match ws with
  | [] => (angles, errors)
  | w :: rest =>
    match inverse_kinematics ARM_L1 ARM_L2 w.1 w.2 true with
    | .ok t =>
      let adj := apply_servo_offset t.1 t.2
      processWaypoints line_num rest
        (angles ++ [(pyRound adj.1, pyRound adj.2)]) errors
    | .error e =>
      processWaypoints line_num rest angles
        (errors ++ [.ikErr line_num w.1 w.2 e])

/-- Waypoints carried by an execution result (`result.get('waypoints', [])`
restricted to the `MOVE_LINEAR`/`MOVE_ARC`/`HOME` kinds). -/
def resultWaypoints : ExecResult → List (ℝ × ℝ)
  | .moveLinear ws _ _ => ws
  | .moveArc ws _ _ _ => ws
  | .homeMove ws _ => ws
  | _ => []

/-- Dispatch on the execution result inside the line loop of
`SDCardExporter.process_gcode` (the `try` body after `execute_command`
succeeded). Returns the updated state and whether the loop `break`s (`M2`). -/
def stepExec (est : ExporterState) (line_num : ℕ) (ls : List Char)
    (pr : ParserState × ExecResult) : ExporterState × Bool :=
  let est1 : ExporterState := { est with ps := pr.1 }
  match pr.2 with
  | .moveLinear _ _ _ | .moveArc _ _ _ _ | .homeMove _ _ | .homeIntermediate _ _ _ =>
    let ae := processWaypoints line_num (resultWaypoints pr.2)
      est1.angles est1.errors
    ({ est1 with angles := ae.1, errors := ae.2 }, false)
  | .dwell (.fin n d) =>
    match est1.angles.getLast? with
    | some la =>
      if 0 < finVal n d then
        ({ est1 with angles := est1.angles ++
            List.replicate (pyInt ((finVal n d : ℝ) * 2)).toNat la }, false)
      else (est1, false)
    | none => (est1, false)
  | .dwell .inf =>
    match est1.angles.getLast? with
    | some _ =>
      ({ est1 with errors := est1.errors ++ [.lineErr line_num ls] }, false)
    | none => (est1, false)
  | .dwell _ => (est1, false)
  | .progEnd =>
    ({ est1 with angles := est1.angles ++ [(SERVO1_HOME, SERVO2_HOME)] }, true)
  | _ => (est1, false)

/-- One iteration of the line loop of `SDCardExporter.process_gcode`:
skip blank and comment lines, parse, execute (logging a raised exception as
a line error), then dispatch on the result. -/
def stepLine (est : ExporterState) (line_num : ℕ) (line : List Char) :
    ExporterState × Bool :=
  let ls := pyStrip line
  if ls = [] ∨ ls.head? = some ';' then (est, false)
  else
    match parse_line ls with
    | none => (est, false)
    | some c =>
      match execute_command est.ps c with
      | .error _ =>
        ({ est with errors := est.errors ++ [.lineErr line_num ls] }, false)
      | .ok pr => stepExec est line_num ls pr

/-- The line loop: process lines in order, stopping after an `M2` line. -/
def processLines (est : ExporterState) (line_num : ℕ) :
    List (List Char) → ExporterState
  | [] => est
  | l :: rest =>
    let sb := stepLine est line_num l
    if sb.2 then sb.1 else processLines sb.1 (line_num + 1) rest

/-- Model of `SDCardExporter.process_gcode`: seed the output with the home pair,
then run the line loop over `gcode_text.strip().split('\n')` with
line numbers starting at 1. -/
def process_gcode (gcode_text : List Char) : List (ℤ × ℤ) × List ErrEntry :=
  let lines := pySplitOn '\n' (pyStrip gcode_text)
  let est := processLines
    { ps := initState, angles := [(SERVO1_HOME, SERVO2_HOME)], errors := [] }
    1 lines
  (est.angles, est.errors)

end

/-! Derived definitions used in the statements below -/

/-- Projection of executing one command: the resulting `current_pos`. -/
noncomputable def execPosition (st : ParserState) (c : ParsedCommand) :
    Option (ℚ × ℚ) :=
  match execute_command st c with
  | .ok pr => some pr.1.current_pos
  | .error _ => none

/-- Parameter dict holding optional X/Y finite literals. -/
def mkXYParams (oX oY : Option (ℤ × ℕ)) : Params :=
  (match oX with
    | some p => [('X', PyLit.fin p.1 p.2)]
    | none => []) ++
  (match oY with
    | some p => [('Y', PyLit.fin p.1 p.2)]
    | none => [])

/-- Per-waypoint actuator pair of a successful inverse-kinematics solution. -/
noncomputable def waypointPair (w : ℝ × ℝ) : Option (ℤ × ℤ) :=
  match inverse_kinematics ARM_L1 ARM_L2 w.1 w.2 true with
  | .ok t => some (pyRound (apply_servo_offset t.1 t.2).1,
      pyRound (apply_servo_offset t.1 t.2).2)
  | .error _ => none

/-- Per-waypoint error entry of a failed inverse-kinematics solution. -/
noncomputable def waypointErr (line_num : ℕ) (w : ℝ × ℝ) : Option ErrEntry :=
  match inverse_kinematics ARM_L1 ARM_L2 w.1 w.2 true with
  | .ok _ => none
  | .error e => some (.ikErr line_num w.1 w.2 e)

lemma two_le_max_toNat (z : ℤ) : 2 ≤ (max 2 z).toNat := by
  have h : (2 : ℤ) ≤ max 2 z := le_max_left _ _
  omega

lemma pyInt_of_nonneg {x : ℝ} (h : 0 ≤ x) : pyInt x = ⌊x⌋ := if_pos h

lemma interpolate_line_length (xs ys xe ye d : ℝ) :
    (interpolate_line xs ys xe ye d).length =
      (max 2 (pyInt (Real.sqrt ((xe - xs) ^ 2 + (ye - ys) ^ 2) * d))).toNat + 1 := by
  simp [interpolate_line]

lemma interpolate_line_head (xs ys xe ye d : ℝ) :
    (interpolate_line xs ys xe ye d).head? = some (xs, ys) := by
  unfold interpolate_line
  simp only [List.range_succ_eq_map, List.map_cons, List.head?_cons,
    Nat.cast_zero, zero_div, zero_mul, add_zero, Option.some.injEq]

lemma interpolate_line_getLast (xs ys xe ye d : ℝ) :
    (interpolate_line xs ys xe ye d).getLast? = some (xe, ye) := by
  unfold interpolate_line
  have hn : (((max 2 (pyInt (Real.sqrt ((xe - xs) ^ 2 + (ye - ys) ^ 2) * d))).toNat : ℝ)) ≠ 0 := by
    have := two_le_max_toNat (pyInt (Real.sqrt ((xe - xs) ^ 2 + (ye - ys) ^ 2) * d))
    have h2 : (0:ℕ) < (max 2 (pyInt (Real.sqrt ((xe - xs) ^ 2 + (ye - ys) ^ 2) * d))).toNat := by omega
    exact_mod_cast h2.ne'
  simp only [List.range_succ, List.map_append, List.map_cons, List.map_nil,
    List.getLast?_concat, div_self hn, one_mul, Option.some.injEq, Prod.mk.injEq]
  constructor <;> ring

/-- C5: for every start point, end point and positive density, the line
interpolator returns exactly `n+1` waypoints with
`n = max(2, floor(distance * density))` (hence at least 3), the first
waypoint equal to the start exactly and the last equal to the end exactly. -/
theorem C5_theorem (xs ys xe ye d : ℝ) (hd : 0 < d) :
    (interpolate_line xs ys xe ye d).length =
      (max 2 ⌊Real.sqrt ((xe - xs) ^ 2 + (ye - ys) ^ 2) * d⌋).toNat + 1 ∧
    3 ≤ (interpolate_line xs ys xe ye d).length ∧
    (interpolate_line xs ys xe ye d).head? = some (xs, ys) ∧
    (interpolate_line xs ys xe ye d).getLast? = some (xe, ye) := by
  have hnn : 0 ≤ Real.sqrt ((xe - xs) ^ 2 + (ye - ys) ^ 2) * d :=
    mul_nonneg (Real.sqrt_nonneg _) hd.le
  refine ⟨?_, ?_, interpolate_line_head _ _ _ _ _, interpolate_line_getLast _ _ _ _ _⟩
  · rw [interpolate_line_length, pyInt_of_nonneg hnn]
  · rw [interpolate_line_length]
    have := two_le_max_toNat (pyInt (Real.sqrt ((xe - xs) ^ 2 + (ye - ys) ^ 2) * d))
    omega

/-- Witness for C5 at start = end = (0,0), density 10. -/
theorem C5_witness :
    (0 : ℝ) < 10 ∧
    ((interpolate_line 0 0 0 0 10).length =
        (max 2 ⌊Real.sqrt ((0 - 0) ^ 2 + (0 - 0) ^ 2) * 10⌋).toNat + 1 ∧
      3 ≤ (interpolate_line 0 0 0 0 10).length ∧
      (interpolate_line 0 0 0 0 10).head? = some (0, 0) ∧
      (interpolate_line 0 0 0 0 10).getLast? = some (0, 0)) :=
  ⟨by norm_num, C5_theorem 0 0 0 0 10 (by norm_num)⟩

lemma atan2_le_pi (y x : ℝ) : atan2 y x ≤ Real.pi := Complex.arg_le_pi _

lemma neg_pi_lt_atan2 (y x : ℝ) : -Real.pi < atan2 y x := Complex.neg_pi_lt_arg _

lemma four_le_arcNumSegments (xs ys xe ye xc yc : ℝ) (cw : Bool) (d : ℝ) :
    4 ≤ arcNumSegments xs ys xe ye xc yc cw d := by
  show 4 ≤ (max 4 (pyInt (|arcRadius xs ys xc yc *
    arcSweep xs ys xe ye xc yc cw| * d))).toNat
  have h : (4 : ℤ) ≤ max 4 (pyInt (|arcRadius xs ys xc yc *
      arcSweep xs ys xe ye xc yc cw| * d)) := le_max_left _ _
  omega

lemma arcSweep_nonpos_of_clockwise (xs ys xe ye xc yc : ℝ) :
    arcSweep xs ys xe ye xc yc true ≤ 0 := by
  unfold arcSweep
  have h1 := atan2_le_pi (ye - yc) (xe - xc)
  have h2 := neg_pi_lt_atan2 (ys - yc) (xs - xc)
  simp only [arcStartAngle, arcEndAngle, if_true]
  split_ifs with h <;> [linarith; linarith]

lemma arcSweep_nonneg_of_ccw (xs ys xe ye xc yc : ℝ) :
    0 ≤ arcSweep xs ys xe ye xc yc false := by
  unfold arcSweep
  have h1 := neg_pi_lt_atan2 (ye - yc) (xe - xc)
  have h2 := atan2_le_pi (ys - yc) (xs - xc)
  simp only [arcStartAngle, arcEndAngle, Bool.false_eq_true, if_false]
  split_ifs with h <;> [linarith; linarith]

/-- C6: for every arc request and positive density, the sweep is
direction-corrected: clockwise gives a non-positive sweep and non-increasing
consecutive waypoint angles; counter-clockwise gives a non-negative sweep
and non-decreasing consecutive waypoint angles. -/
theorem C6_theorem (xs ys xe ye xc yc : ℝ) (cw : Bool) (d : ℝ) (hd : 0 < d) :
    (cw = true → arcSweep xs ys xe ye xc yc true ≤ 0 ∧
      ∀ i : ℕ, arcAngle xs ys xe ye xc yc true d (i + 1) ≤
        arcAngle xs ys xe ye xc yc true d i) ∧
    (cw = false → 0 ≤ arcSweep xs ys xe ye xc yc false ∧
      ∀ i : ℕ, arcAngle xs ys xe ye xc yc false d i ≤
        arcAngle xs ys xe ye xc yc false d (i + 1)) := by
  have hn : ∀ b : Bool, (0:ℝ) < ((arcNumSegments xs ys xe ye xc yc b d : ℕ) : ℝ) := by
    intro b
    have h4 := four_le_arcNumSegments xs ys xe ye xc yc b d
    have : 0 < arcNumSegments xs ys xe ye xc yc b d := by omega
    exact_mod_cast this
  constructor
  · intro _
    refine ⟨arcSweep_nonpos_of_clockwise _ _ _ _ _ _, fun i => ?_⟩
    unfold arcAngle
    have hdiv : ((i : ℝ) / ((arcNumSegments xs ys xe ye xc yc true d : ℕ) : ℝ)) ≤
        (((i + 1 : ℕ) : ℝ) / ((arcNumSegments xs ys xe ye xc yc true d : ℕ) : ℝ)) :=
      (div_le_div_iff_of_pos_right (hn true)).mpr (by push_cast; linarith)
    have hs := arcSweep_nonpos_of_clockwise xs ys xe ye xc yc
    have := mul_le_mul_of_nonpos_right hdiv hs
    linarith
  · intro _
    refine ⟨arcSweep_nonneg_of_ccw _ _ _ _ _ _, fun i => ?_⟩
    unfold arcAngle
    have hdiv : ((i : ℝ) / ((arcNumSegments xs ys xe ye xc yc false d : ℕ) : ℝ)) ≤
        (((i + 1 : ℕ) : ℝ) / ((arcNumSegments xs ys xe ye xc yc false d : ℕ) : ℝ)) :=
      (div_le_div_iff_of_pos_right (hn false)).mpr (by push_cast; linarith)
    have hs := arcSweep_nonneg_of_ccw xs ys xe ye xc yc
    have := mul_le_mul_of_nonneg_right hdiv hs
    linarith

/-- Witness for C6 on the quarter circle from (6,0) to (0,6) about (0,0). -/
theorem C6_witness :
    (0 : ℝ) < 10 ∧
    ((true = true → arcSweep 6 0 0 6 0 0 true ≤ 0 ∧
      ∀ i : ℕ, arcAngle 6 0 0 6 0 0 true 10 (i + 1) ≤ arcAngle 6 0 0 6 0 0 true 10 i) ∧
    (true = false → 0 ≤ arcSweep 6 0 0 6 0 0 false ∧
      ∀ i : ℕ, arcAngle 6 0 0 6 0 0 false 10 i ≤ arcAngle 6 0 0 6 0 0 false 10 (i + 1))) :=
  ⟨by norm_num, C6_theorem 6 0 0 6 0 0 true 10 (by norm_num)⟩

lemma min_reach_le_max_reach {L1 L2 : ℝ} (h1 : 0 ≤ L1) (h2 : 0 ≤ L2) :
    min_reach L1 L2 ≤ max_reach L1 L2 := by
  unfold min_reach max_reach
  rw [abs_le]
  constructor <;> linarith

lemma ik_out_eq {L1 L2 x y : ℝ} (eu : Bool)
    (h : max_reach L1 L2 < Real.sqrt (x ^ 2 + y ^ 2)) :
    inverse_kinematics L1 L2 x y eu = .error .outOfReach := by
  simp only [inverse_kinematics]
  rw [if_pos (show Real.sqrt (x ^ 2 + y ^ 2) > max_reach L1 L2 from h)]

lemma ik_close_eq {L1 L2 x y : ℝ} (eu : Bool)
    (hmax : ¬ max_reach L1 L2 < Real.sqrt (x ^ 2 + y ^ 2))
    (h : Real.sqrt (x ^ 2 + y ^ 2) < min_reach L1 L2) :
    inverse_kinematics L1 L2 x y eu = .error .tooClose := by
  simp only [inverse_kinematics]
  rw [if_neg (show ¬ Real.sqrt (x ^ 2 + y ^ 2) > max_reach L1 L2 from hmax), if_pos h]

lemma ik_ok_of_reachable {L1 L2 x y : ℝ} (eu : Bool)
    (hmin : min_reach L1 L2 ≤ Real.sqrt (x ^ 2 + y ^ 2))
    (hmax : Real.sqrt (x ^ 2 + y ^ 2) ≤ max_reach L1 L2) :
    ∃ t, inverse_kinematics L1 L2 x y eu = .ok t := by
  simp only [inverse_kinematics]
  rw [if_neg (show ¬ Real.sqrt (x ^ 2 + y ^ 2) > max_reach L1 L2 from not_lt.mpr hmax),
    if_neg (not_lt.mpr hmin)]
  by_cases hc : Real.sqrt (x ^ 2 + y ^ 2) < 0.001
  · rw [if_pos hc]; exact ⟨_, rfl⟩
  · rw [if_neg hc]; exact ⟨_, rfl⟩

/-- C3: for every point, inverse kinematics fails with `outOfReach` exactly
when `r > max_reach`, fails with `tooClose` exactly when `r < min_reach`,
and returns an angle pair exactly when `is_reachable` holds. -/
theorem C3_theorem (L1 L2 x y : ℝ) (eu : Bool) (h1 : 0 ≤ L1) (h2 : 0 ≤ L2) :
    (inverse_kinematics L1 L2 x y eu = .error .outOfReach ↔
      max_reach L1 L2 < Real.sqrt (x ^ 2 + y ^ 2)) ∧
    (inverse_kinematics L1 L2 x y eu = .error .tooClose ↔
      Real.sqrt (x ^ 2 + y ^ 2) < min_reach L1 L2) ∧
    ((∃ t, inverse_kinematics L1 L2 x y eu = .ok t) ↔ is_reachable L1 L2 x y) := by
  have hmm := min_reach_le_max_reach h1 h2
  by_cases ha : max_reach L1 L2 < Real.sqrt (x ^ 2 + y ^ 2)
  · have hres := @ik_out_eq L1 L2 x y eu ha
    refine ⟨iff_of_true hres ha, iff_of_false (by rw [hres]; simp) ?_, iff_of_false ?_ ?_⟩
    · exact not_lt.mpr (hmm.trans_lt ha).le
    · rintro ⟨t, ht⟩
      rw [hres] at ht
      exact absurd ht (by simp)
    · rintro ⟨_, hle⟩
      exact absurd hle (not_le.mpr ha)
  · by_cases hb : Real.sqrt (x ^ 2 + y ^ 2) < min_reach L1 L2
    · have hres := @ik_close_eq L1 L2 x y eu ha hb
      refine ⟨iff_of_false (by rw [hres]; simp) ha, iff_of_true hres hb,
        iff_of_false ?_ ?_⟩
      · rintro ⟨t, ht⟩
        rw [hres] at ht
        exact absurd ht (by simp)
      · rintro ⟨hge, _⟩
        exact absurd hb (not_lt.mpr hge)
    · obtain ⟨t, ht⟩ := @ik_ok_of_reachable L1 L2 x y eu
        (not_lt.mp hb) (not_lt.mp ha)
      refine ⟨iff_of_false (by rw [ht]; simp) ha, iff_of_false (by rw [ht]; simp) hb,
        iff_of_true ⟨t, ht⟩ ⟨not_lt.mp hb, not_lt.mp ha⟩⟩

/-- Witness for C3 at the out-of-reach point (15,0) on the L1 = L2 = 6 arm. -/
theorem C3_witness :
    (0 : ℝ) ≤ 6 ∧
    ((inverse_kinematics 6 6 15 0 true = .error .outOfReach ↔
        max_reach 6 6 < Real.sqrt (15 ^ 2 + 0 ^ 2)) ∧
      (inverse_kinematics 6 6 15 0 true = .error .tooClose ↔
        Real.sqrt (15 ^ 2 + 0 ^ 2) < min_reach 6 6) ∧
      ((∃ t, inverse_kinematics 6 6 15 0 true = .ok t) ↔ is_reachable 6 6 15 0)) :=
  ⟨by norm_num, C3_theorem 6 6 15 0 true (by norm_num) (by norm_num)⟩

lemma radians_degrees (x : ℝ) : radians (degrees x) = x := by
  unfold radians degrees
  field_simp

lemma complex_abs_mk (x y : ℝ) :
    Complex.abs ⟨x, y⟩ = Real.sqrt (x ^ 2 + y ^ 2) := by
  rw [Complex.abs_apply, Complex.normSq_mk]
  congr 1
  ring

lemma cos_atan2 {x y : ℝ} (h : ¬(x = 0 ∧ y = 0)) :
    Real.cos (atan2 y x) = x / Real.sqrt (x ^ 2 + y ^ 2) := by
  unfold atan2
  rw [Complex.cos_arg, complex_abs_mk]
  intro hz
  rw [Complex.ext_iff] at hz
  exact h ⟨hz.1, hz.2⟩

lemma sin_atan2 (x y : ℝ) :
    Real.sin (atan2 y x) = y / Real.sqrt (x ^ 2 + y ^ 2) := by
  unfold atan2
  rw [Complex.sin_arg, complex_abs_mk]

lemma two_link_identity (L1 L2 x y t2 : ℝ) (hxy : (0 : ℝ) < x ^ 2 + y ^ 2)
    (hk : (L1 + L2 * Real.cos t2) ^ 2 + (L2 * Real.sin t2) ^ 2 = x ^ 2 + y ^ 2) :
    L1 * Real.cos (atan2 y x - atan2 (L2 * Real.sin t2) (L1 + L2 * Real.cos t2)) +
      L2 * Real.cos ((atan2 y x - atan2 (L2 * Real.sin t2) (L1 + L2 * Real.cos t2)) + t2) = x ∧
    L1 * Real.sin (atan2 y x - atan2 (L2 * Real.sin t2) (L1 + L2 * Real.cos t2)) +
      L2 * Real.sin ((atan2 y x - atan2 (L2 * Real.sin t2) (L1 + L2 * Real.cos t2)) + t2) = y := by
  have hxne : ¬(x = 0 ∧ y = 0) := by
    rintro ⟨rfl, rfl⟩
    norm_num at hxy
  have hkne : ¬(L1 + L2 * Real.cos t2 = 0 ∧ L2 * Real.sin t2 = 0) := by
    rintro ⟨h1, h2⟩
    rw [h1, h2] at hk
    norm_num at hk
    linarith
  have hrpos : 0 < Real.sqrt (x ^ 2 + y ^ 2) := Real.sqrt_pos.mpr hxy
  have hr2 : Real.sqrt (x ^ 2 + y ^ 2) ^ 2 = x ^ 2 + y ^ 2 := Real.sq_sqrt hxy.le
  have hca := cos_atan2 hxne
  have hsa := sin_atan2 x y
  have hcb : Real.cos (atan2 (L2 * Real.sin t2) (L1 + L2 * Real.cos t2)) =
      (L1 + L2 * Real.cos t2) / Real.sqrt (x ^ 2 + y ^ 2) := by
    rw [cos_atan2 hkne, hk]
  have hsb : Real.sin (atan2 (L2 * Real.sin t2) (L1 + L2 * Real.cos t2)) =
      (L2 * Real.sin t2) / Real.sqrt (x ^ 2 + y ^ 2) := by
    rw [sin_atan2, hk]
  constructor
  · have expand : L1 * Real.cos (atan2 y x - atan2 (L2 * Real.sin t2) (L1 + L2 * Real.cos t2)) +
        L2 * Real.cos ((atan2 y x - atan2 (L2 * Real.sin t2) (L1 + L2 * Real.cos t2)) + t2) =
        Real.cos (atan2 y x - atan2 (L2 * Real.sin t2) (L1 + L2 * Real.cos t2)) *
          (L1 + L2 * Real.cos t2) -
        Real.sin (atan2 y x - atan2 (L2 * Real.sin t2) (L1 + L2 * Real.cos t2)) *
          (L2 * Real.sin t2) := by
      rw [Real.cos_add]
      ring
    rw [expand, Real.cos_sub, Real.sin_sub, hca, hsa, hcb, hsb]
    field_simp
    linear_combination x * hk
  · have expand : L1 * Real.sin (atan2 y x - atan2 (L2 * Real.sin t2) (L1 + L2 * Real.cos t2)) +
        L2 * Real.sin ((atan2 y x - atan2 (L2 * Real.sin t2) (L1 + L2 * Real.cos t2)) + t2) =
        Real.sin (atan2 y x - atan2 (L2 * Real.sin t2) (L1 + L2 * Real.cos t2)) *
          (L1 + L2 * Real.cos t2) +
        Real.cos (atan2 y x - atan2 (L2 * Real.sin t2) (L1 + L2 * Real.cos t2)) *
          (L2 * Real.sin t2) := by
      rw [Real.sin_add]
      ring
    rw [expand, Real.sin_sub, Real.cos_sub, hca, hsa, hcb, hsb]
    field_simp
    linear_combination y * hk

lemma ik_ok_formula {L1 L2 x y : ℝ}
    (hmax : ¬ Real.sqrt (x ^ 2 + y ^ 2) > max_reach L1 L2)
    (hmin : ¬ Real.sqrt (x ^ 2 + y ^ 2) < min_reach L1 L2)
    (hcut : ¬ Real.sqrt (x ^ 2 + y ^ 2) < 0.001) :
    inverse_kinematics L1 L2 x y true =
      .ok (degrees (atan2 y x -
          atan2 (L2 * Real.sin (Real.arccos (max (-1) (min 1
              ((x ^ 2 + y ^ 2 - L1 ^ 2 - L2 ^ 2) / (2 * L1 * L2))))))
            (L1 + L2 * Real.cos (Real.arccos (max (-1) (min 1
              ((x ^ 2 + y ^ 2 - L1 ^ 2 - L2 ^ 2) / (2 * L1 * L2))))))),
        degrees (Real.arccos (max (-1) (min 1
          ((x ^ 2 + y ^ 2 - L1 ^ 2 - L2 ^ 2) / (2 * L1 * L2)))))) := by
  simp only [inverse_kinematics]
  rw [if_neg hmax, if_neg hmin, if_neg hcut]
  simp

/-- C2 (amended): for every point with
`max(min_reach, 0.001) ≤ r ≤ max_reach`, inverse kinematics (elbow-up)
succeeds and composing with forward kinematics returns a point within
1e-3 inches of the input (in fact exactly the input over the reals). -/
theorem C2_theorem (L1 L2 x y : ℝ) (hL1 : 0 < L1) (hL2 : 0 < L2)
    (hmin : min_reach L1 L2 ≤ Real.sqrt (x ^ 2 + y ^ 2))
    (hcut : 0.001 ≤ Real.sqrt (x ^ 2 + y ^ 2))
    (hmax : Real.sqrt (x ^ 2 + y ^ 2) ≤ max_reach L1 L2) :
    ∃ t1 t2, inverse_kinematics L1 L2 x y true = .ok (t1, t2) ∧
      Real.sqrt (((forward_kinematics L1 L2 t1 t2).1 - x) ^ 2 +
        ((forward_kinematics L1 L2 t1 t2).2 - y) ^ 2) ≤ 0.001 := by
  have hr2 : Real.sqrt (x ^ 2 + y ^ 2) ^ 2 = x ^ 2 + y ^ 2 :=
    Real.sq_sqrt (by positivity)
  have hub : x ^ 2 + y ^ 2 ≤ (L1 + L2) ^ 2 := by
    have h := pow_le_pow_left₀ (Real.sqrt_nonneg (x ^ 2 + y ^ 2)) hmax 2
    rw [hr2] at h
    exact h.trans_eq (by unfold max_reach; ring)
  have hlb : (L1 - L2) ^ 2 ≤ x ^ 2 + y ^ 2 := by
    have h := pow_le_pow_left₀ (abs_nonneg (L1 - L2)) hmin 2
    rw [hr2] at h
    calc (L1 - L2) ^ 2 = min_reach L1 L2 ^ 2 := by unfold min_reach; rw [sq_abs]
    _ ≤ x ^ 2 + y ^ 2 := h
  have h2L : 0 < 2 * L1 * L2 := by positivity
  have hc1 : -1 ≤ (x ^ 2 + y ^ 2 - L1 ^ 2 - L2 ^ 2) / (2 * L1 * L2) := by
    rw [le_div_iff₀ h2L]
    nlinarith [hlb]
  have hc2 : (x ^ 2 + y ^ 2 - L1 ^ 2 - L2 ^ 2) / (2 * L1 * L2) ≤ 1 := by
    rw [div_le_one h2L]
    nlinarith [hub]
  have hxy : 0 < x ^ 2 + y ^ 2 := by
    have h0 : 0 < Real.sqrt (x ^ 2 + y ^ 2) := lt_of_lt_of_le (by norm_num) hcut
    nlinarith [hr2, h0]
  have h2c : 2 * L1 * L2 * ((x ^ 2 + y ^ 2 - L1 ^ 2 - L2 ^ 2) / (2 * L1 * L2)) =
      x ^ 2 + y ^ 2 - L1 ^ 2 - L2 ^ 2 := by
    field_simp
  have hsin2 : Real.sin (Real.arccos ((x ^ 2 + y ^ 2 - L1 ^ 2 - L2 ^ 2) /
      (2 * L1 * L2))) ^ 2 =
      1 - ((x ^ 2 + y ^ 2 - L1 ^ 2 - L2 ^ 2) / (2 * L1 * L2)) ^ 2 := by
    rw [Real.sin_arccos]
    exact Real.sq_sqrt (by nlinarith [hc1, hc2])
  have hkeq : (L1 + L2 * Real.cos (Real.arccos ((x ^ 2 + y ^ 2 - L1 ^ 2 - L2 ^ 2) /
        (2 * L1 * L2)))) ^ 2 +
      (L2 * Real.sin (Real.arccos ((x ^ 2 + y ^ 2 - L1 ^ 2 - L2 ^ 2) /
        (2 * L1 * L2)))) ^ 2 = x ^ 2 + y ^ 2 := by
    rw [Real.cos_arccos hc1 hc2, mul_pow, hsin2]
    linear_combination h2c
  obtain ⟨hfx, hfy⟩ := two_link_identity L1 L2 x y
    (Real.arccos ((x ^ 2 + y ^ 2 - L1 ^ 2 - L2 ^ 2) / (2 * L1 * L2))) hxy hkeq
  have hik := @ik_ok_formula L1 L2 x y
    (not_lt.mpr hmax) (not_lt.mpr hmin) (not_lt.mpr hcut)
  rw [min_eq_right hc2, max_eq_right hc1] at hik
  refine ⟨_, _, hik, ?_⟩
  have hfwd : forward_kinematics L1 L2
      (degrees (atan2 y x -
        atan2 (L2 * Real.sin (Real.arccos ((x ^ 2 + y ^ 2 - L1 ^ 2 - L2 ^ 2) /
            (2 * L1 * L2))))
          (L1 + L2 * Real.cos (Real.arccos ((x ^ 2 + y ^ 2 - L1 ^ 2 - L2 ^ 2) /
            (2 * L1 * L2))))))
      (degrees (Real.arccos ((x ^ 2 + y ^ 2 - L1 ^ 2 - L2 ^ 2) / (2 * L1 * L2)))) =
      (x, y) := by
    unfold forward_kinematics
    rw [radians_degrees, radians_degrees]
    exact Prod.ext hfx hfy
  rw [hfwd]
  norm_num

lemma sqrt_36 : Real.sqrt ((6 : ℝ) ^ 2 + 0 ^ 2) = 6 := by
  rw [show ((6 : ℝ) ^ 2 + 0 ^ 2) = 6 ^ 2 by norm_num,
    Real.sqrt_sq (by norm_num : (0 : ℝ) ≤ 6)]

/-- C2 counterexample: on the L1 = L2 = 6 arm (so `min_reach = 0`), the
point (0,0) lies in the claimed domain, inverse kinematics returns (0,0)
through the sub-0.001 singularity branch, but the forward image is (12,0),
which is 12 inches from (0,0), far beyond the 1e-3 tolerance. -/
theorem C2_counterexample :
    min_reach 6 6 ≤ Real.sqrt ((0 : ℝ) ^ 2 + 0 ^ 2) ∧
    Real.sqrt ((0 : ℝ) ^ 2 + 0 ^ 2) ≤ max_reach 6 6 ∧
    inverse_kinematics 6 6 0 0 true = .ok (0, 0) ∧
    forward_kinematics 6 6 0 0 = (12, 0) ∧
    ¬ Real.sqrt (((forward_kinematics 6 6 0 0).1 - 0) ^ 2 +
        ((forward_kinematics 6 6 0 0).2 - 0) ^ 2) ≤ 0.001 := by
  have h0 : Real.sqrt ((0 : ℝ) ^ 2 + 0 ^ 2) = 0 := by
    norm_num [Real.sqrt_zero]
  have hfwd : forward_kinematics 6 6 0 0 = (12, 0) := by
    unfold forward_kinematics radians
    norm_num
  refine ⟨?_, ?_, ?_, hfwd, ?_⟩
  · rw [h0]; unfold min_reach; norm_num
  · rw [h0]; unfold max_reach; norm_num
  · simp only [inverse_kinematics]
    rw [if_neg (by rw [h0]; unfold max_reach; norm_num),
      if_neg (by rw [h0]; unfold min_reach; norm_num),
      if_pos (by rw [h0]; norm_num)]
  · rw [hfwd]
    have h12 : Real.sqrt (((12 : ℝ) - 0) ^ 2 + ((0 : ℝ) - 0) ^ 2) = 12 := by
      rw [show (((12 : ℝ) - 0) ^ 2 + ((0 : ℝ) - 0) ^ 2) = 12 ^ 2 by norm_num,
        Real.sqrt_sq (by norm_num : (0 : ℝ) ≤ 12)]
    rw [h12]
    norm_num

/-- Witness for C2 at the point (6,0) on the L1 = L2 = 6 arm. -/
theorem C2_witness :
    ((0 : ℝ) < 6 ∧ min_reach 6 6 ≤ Real.sqrt ((6 : ℝ) ^ 2 + 0 ^ 2) ∧
      (0.001 : ℝ) ≤ Real.sqrt ((6 : ℝ) ^ 2 + 0 ^ 2) ∧
      Real.sqrt ((6 : ℝ) ^ 2 + 0 ^ 2) ≤ max_reach 6 6) ∧
    ∃ t1 t2, inverse_kinematics 6 6 6 0 true = .ok (t1, t2) ∧
      Real.sqrt (((forward_kinematics 6 6 t1 t2).1 - 6) ^ 2 +
        ((forward_kinematics 6 6 t1 t2).2 - 0) ^ 2) ≤ 0.001 :=
  ⟨⟨by norm_num, by unfold min_reach; rw [sqrt_36]; norm_num,
      by rw [sqrt_36]; norm_num, by unfold max_reach; rw [sqrt_36]; norm_num⟩,
    C2_theorem 6 6 6 0 (by norm_num) (by norm_num)
      (by unfold min_reach; rw [sqrt_36]; norm_num)
      (by rw [sqrt_36]; norm_num)
      (by unfold max_reach; rw [sqrt_36]; norm_num)⟩

/-- C1: evaluation of the code at the claimed scenario. With
`current_position = (4,4)`, zero offset and absolute mode, `G92 X0 Y0`
stores `offset = (4,4)`, and the following `G1 X2 Y2` moves the arm to the
internal-frame target `(-2,-2)` — not `(6,6)` as the specification states
(the linear move subtracts the offset where the code's own
`get_current_position` convention requires adding it). -/
theorem C1_code_eval :
    parse_line "G92 X0 Y0".toList =
      some ⟨"G92".toList, [('X', .fin 0 0), ('Y', .fin 0 0)], "G92 X0 Y0".toList⟩ ∧
    execute_command ⟨true, "inches".toList, (4, 4), (0, 0), 2, (6, 6), 0⟩
      ⟨"G92".toList, [('X', .fin 0 0), ('Y', .fin 0 0)], "G92 X0 Y0".toList⟩ =
      .ok (⟨true, "inches".toList, (4, 4), (4, 4), 2, (6, 6), 1⟩,
        .setPositionSet (0, 0) (4, 4)) ∧
    parse_line "G1 X2 Y2".toList =
      some ⟨"G1".toList, [('X', .fin 2 0), ('Y', .fin 2 0)], "G1 X2 Y2".toList⟩ ∧
    execPosition ⟨true, "inches".toList, (4, 4), (4, 4), 2, (6, 6), 1⟩
      ⟨"G1".toList, [('X', .fin 2 0), ('Y', .fin 2 0)], "G1 X2 Y2".toList⟩ =
      some (-2, -2) ∧
    ((-2 : ℚ), (-2 : ℚ)) ≠ ((6 : ℚ), (6 : ℚ)) := by
  refine ⟨by decide, ?_, by decide, ?_, by decide⟩
  · simp [execute_command, executeDispatch, processSetPosition, getFin, lookupParam, finVal,
      Except.instMonad, Except.bind, Except.pure]
  · simp [execPosition, execute_command, executeDispatch, processLinearMove, resolveTarget,
      updateFeed, getFin, lookupParam, finVal,
      Except.instMonad, Except.bind, Except.pure]
    norm_num

/-- C10 counterexample: with `current_pos = (4,4)` and a prior offset
(0,1), the pre-command external position is (4,3); after `G92 X0` the
reported position is (0,4) — the missing Y axis is reset to the internal
coordinate 4, not the pre-command external value 3. -/
theorem C10_counterexample :
    execute_command ⟨true, "inches".toList, (4, 4), (0, 1), 2, (6, 6), 0⟩
      ⟨"G92".toList, [('X', .fin 0 0)], "G92 X0".toList⟩ =
      .ok (⟨true, "inches".toList, (4, 4), (4, 0), 2, (6, 6), 1⟩,
        .setPositionSet (0, 4) (4, 0)) ∧
    get_current_position ⟨true, "inches".toList, (4, 4), (4, 0), 2, (6, 6), 1⟩ =
      (0, 4) ∧
    get_current_position ⟨true, "inches".toList, (4, 4), (0, 1), 2, (6, 6), 0⟩ =
      (4, 3) ∧
    ((4 : ℚ) ≠ 3) := by
  refine ⟨?_, ?_, ?_, by norm_num⟩
  · simp [execute_command, executeDispatch, processSetPosition, getFin, lookupParam, finVal,
      Except.instMonad, Except.bind, Except.pure]
  · simp [get_current_position]
  · simp [get_current_position]
    norm_num

/-- C10 (amended): after `G92` with at least one of X/Y present,
`get_current_position` returns exactly the requested value on each supplied
axis and the pre-command internal coordinate on each missing axis (the
offset on a missing axis is reset to zero), while `current_pos` itself is
unchanged. -/
theorem C10_theorem (st : ParserState) (oX oY : Option (ℤ × ℕ)) (raw : List Char)
    (hne : oX.isSome ∨ oY.isSome) :
    ∃ st' res,
      execute_command st ⟨"G92".toList, mkXYParams oX oY, raw⟩ = .ok (st', res) ∧
      st'.current_pos = st.current_pos ∧
      get_current_position st' =
        ((oX.map fun p => finVal p.1 p.2).getD st.current_pos.1,
          (oY.map fun p => finVal p.1 p.2).getD st.current_pos.2) := by
  rcases oX with _ | ⟨n1, d1⟩ <;> rcases oY with _ | ⟨n2, d2⟩
  · simp at hne
  · refine ⟨{ st with
        offset := (st.current_pos.1 - st.current_pos.1,
          st.current_pos.2 - finVal n2 d2),
        command_count := st.command_count + 1 },
      .setPositionSet (st.current_pos.1, finVal n2 d2)
        (st.current_pos.1 - st.current_pos.1, st.current_pos.2 - finVal n2 d2),
      ?_, rfl, ?_⟩
    · simp [execute_command, executeDispatch, processSetPosition, mkXYParams, getFin, lookupParam,
        Except.instMonad, Except.bind, Except.pure]
    · simp only [get_current_position, Option.map_none', Option.map_some',
        Option.getD_none, Option.getD_some, Prod.mk.injEq]
      constructor <;> ring
  · refine ⟨{ st with
        offset := (st.current_pos.1 - finVal n1 d1,
          st.current_pos.2 - st.current_pos.2),
        command_count := st.command_count + 1 },
      .setPositionSet (finVal n1 d1, st.current_pos.2)
        (st.current_pos.1 - finVal n1 d1, st.current_pos.2 - st.current_pos.2),
      ?_, rfl, ?_⟩
    · simp [execute_command, executeDispatch, processSetPosition, mkXYParams, getFin, lookupParam,
        Except.instMonad, Except.bind, Except.pure]
    · simp only [get_current_position, Option.map_none', Option.map_some',
        Option.getD_none, Option.getD_some, Prod.mk.injEq]
      constructor <;> ring
  · refine ⟨{ st with
        offset := (st.current_pos.1 - finVal n1 d1,
          st.current_pos.2 - finVal n2 d2),
        command_count := st.command_count + 1 },
      .setPositionSet (finVal n1 d1, finVal n2 d2)
        (st.current_pos.1 - finVal n1 d1, st.current_pos.2 - finVal n2 d2),
      ?_, rfl, ?_⟩
    · simp [execute_command, executeDispatch, processSetPosition, mkXYParams, getFin, lookupParam,
        Except.instMonad, Except.bind, Except.pure]
    · simp only [get_current_position, Option.map_some', Option.getD_some,
        Prod.mk.injEq]
      constructor <;> ring

/-- Witness for C10: `G92 X0` from the initial state. -/
theorem C10_witness :
    ((some ((0 : ℤ), (0 : ℕ)) : Option (ℤ × ℕ)).isSome ∨
      (none : Option (ℤ × ℕ)).isSome) ∧
    ∃ st' res,
      execute_command initState
        ⟨"G92".toList, mkXYParams (some (0, 0)) none, "G92 X0".toList⟩ =
        .ok (st', res) ∧
      st'.current_pos = initState.current_pos ∧
      get_current_position st' =
        (((some ((0 : ℤ), (0 : ℕ))).map fun p => finVal p.1 p.2).getD
            initState.current_pos.1,
          ((none : Option (ℤ × ℕ)).map fun p => finVal p.1 p.2).getD
            initState.current_pos.2) :=
  ⟨by decide, C10_theorem initState (some (0, 0)) none "G92 X0".toList (by decide)⟩

/-- C9 counterexample: CPython float accepts the token and produces a nan
parameter, and `execute_command` of `M6 Tnan` raises (modelled as
`Except.error`) at the `int(...)` conversion, so an exception escapes the
parser component. -/
theorem C9_counterexample :
    parse_line "M6 Tnan".toList =
      some ⟨"M6".toList, [('T', .nan)], "M6 Tnan".toList⟩ ∧
    execute_command initState ⟨"M6".toList, [('T', .nan)], "M6 Tnan".toList⟩ =
      .error () := by
  refine ⟨by decide, ?_⟩
  simp [execute_command, executeDispatch, lookupParam]

lemma getFin_ok {ps : Params} (k : Char) (dflt : ℚ)
    (hfin : ∀ k' v, lookupParam ps k' = some v → ∃ n d, v = PyLit.fin n d) :
    ∃ q, getFin ps k dflt = .ok q := by
  cases h : lookupParam ps k with
  | none => exact ⟨dflt, by simp [getFin, h]⟩
  | some v =>
    obtain ⟨n, d, rfl⟩ := hfin k v h
    exact ⟨finVal n d, by simp [getFin, h]⟩

lemma resolveTarget_ok {st : ParserState} {ps : Params}
    (hfin : ∀ k' v, lookupParam ps k' = some v → ∃ n d, v = PyLit.fin n d) :
    ∃ p, resolveTarget st ps = .ok p := by
  obtain ⟨qx1, hx1⟩ := @getFin_ok ps 'X' st.current_pos.1 hfin
  obtain ⟨qy1, hy1⟩ := @getFin_ok ps 'Y' st.current_pos.2 hfin
  obtain ⟨qx0, hx0⟩ := @getFin_ok ps 'X' 0 hfin
  obtain ⟨qy0, hy0⟩ := @getFin_ok ps 'Y' 0 hfin
  unfold resolveTarget
  by_cases hm : st.absolute_mode <;>
    simp [hm, hx1, hy1, hx0, hy0, Except.instMonad, Except.bind, Except.pure]

lemma processLinearMove_ok {st : ParserState} {ps : Params} (rapid : Bool)
    (hfin : ∀ k' v, lookupParam ps k' = some v → ∃ n d, v = PyLit.fin n d) :
    ∃ pr, processLinearMove st ps rapid = .ok pr := by
  obtain ⟨p, hp⟩ := @resolveTarget_ok st ps hfin
  unfold processLinearMove
  simp [hp, Except.instMonad, Except.bind, Except.pure]

lemma processArcMove_ok {st : ParserState} {ps : Params} (cw : Bool)
    (hfin : ∀ k' v, lookupParam ps k' = some v → ∃ n d, v = PyLit.fin n d) :
    ∃ pr, processArcMove st ps cw = .ok pr := by
  obtain ⟨p, hp⟩ := @resolveTarget_ok st ps hfin
  obtain ⟨qi, hi⟩ := @getFin_ok ps 'I' 0 hfin
  obtain ⟨qj, hj⟩ := @getFin_ok ps 'J' 0 hfin
  unfold processArcMove
  simp [hp, hi, hj, Except.instMonad, Except.bind, Except.pure]

lemma processSetPosition_ok {st : ParserState} {ps : Params}
    (hfin : ∀ k' v, lookupParam ps k' = some v → ∃ n d, v = PyLit.fin n d) :
    ∃ pr, processSetPosition st ps = .ok pr := by
  by_cases hps : ps = []
  · unfold processSetPosition
    simp [hps, Except.instMonad, Except.pure]
  · obtain ⟨qx, hx⟩ := @getFin_ok ps 'X' st.current_pos.1 hfin
    obtain ⟨qy, hy⟩ := @getFin_ok ps 'Y' st.current_pos.2 hfin
    unfold processSetPosition
    simp [hps, hx, hy, Except.instMonad, Except.bind, Except.pure]

lemma executeDispatch_ok (st : ParserState) (c : ParsedCommand)
    (hfin : ∀ k v, lookupParam c.params k = some v → ∃ n d, v = PyLit.fin n d) :
    ∃ pr, executeDispatch st c = .ok pr := by
  unfold executeDispatch
  by_cases h0 : c.command = "G0".toList
  · rw [if_pos h0]; exact processLinearMove_ok true hfin
  rw [if_neg h0]
  by_cases h1 : c.command = "G1".toList
  · rw [if_pos h1]; exact processLinearMove_ok false hfin
  rw [if_neg h1]
  by_cases h2 : c.command = "G2".toList
  · rw [if_pos h2]; exact processArcMove_ok true hfin
  rw [if_neg h2]
  by_cases h3 : c.command = "G3".toList
  · rw [if_pos h3]; exact processArcMove_ok false hfin
  rw [if_neg h3]
  by_cases h4 : c.command = "G4".toList
  · rw [if_pos h4]; exact ⟨_, rfl⟩
  rw [if_neg h4]
  by_cases h20 : c.command = "G20".toList
  · rw [if_pos h20]; exact ⟨_, rfl⟩
  rw [if_neg h20]
  by_cases h21 : c.command = "G21".toList
  · rw [if_pos h21]; exact ⟨_, rfl⟩
  rw [if_neg h21]
  by_cases h28 : c.command = "G28".toList
  · rw [if_pos h28]; exact ⟨_, rfl⟩
  rw [if_neg h28]
  by_cases h90 : c.command = "G90".toList
  · rw [if_pos h90]; exact ⟨_, rfl⟩
  rw [if_neg h90]
  by_cases h91 : c.command = "G91".toList
  · rw [if_pos h91]; exact ⟨_, rfl⟩
  rw [if_neg h91]
  by_cases h92 : c.command = "G92".toList
  · rw [if_pos h92]; exact processSetPosition_ok hfin
  rw [if_neg h92]
  by_cases hm2 : c.command = "M2".toList
  · rw [if_pos hm2]; exact ⟨_, rfl⟩
  rw [if_neg hm2]
  by_cases hm6 : c.command = "M6".toList
  · rw [if_pos hm6]
    cases h : lookupParam c.params 'T' with
    | none => exact ⟨_, rfl⟩
    | some v =>
      obtain ⟨n, d, rfl⟩ := hfin 'T' v h
      exact ⟨_, rfl⟩
  rw [if_neg hm6]
  exact ⟨_, rfl⟩

/-- C9 (amended): `execute_command` returns a result for every command all
of whose parameter values are finite, and any unrecognized code yields the
UNKNOWN result; only non-finite parameter values (which Python float
parsing can produce from NAN or INF tokens) can make execution raise. -/
theorem C9_theorem (st : ParserState) (c : ParsedCommand)
    (hfin : ∀ k v, lookupParam c.params k = some v → ∃ n d, v = PyLit.fin n d) :
    (∃ pr, execute_command st c = .ok pr) ∧
    (c.command ∉ ["G0".toList, "G1".toList, "G2".toList, "G3".toList, "G4".toList,
        "G20".toList, "G21".toList, "G28".toList, "G90".toList, "G91".toList,
        "G92".toList, "M2".toList, "M6".toList] →
      execute_command st c =
        .ok ({ st with command_count := st.command_count + 1 }, .unknown c.raw)) := by
  constructor
  · unfold execute_command
    exact executeDispatch_ok _ _ hfin
  · intro hc
    unfold execute_command executeDispatch
    rw [if_neg (fun h => hc (by rw [h]; decide)), if_neg (fun h => hc (by rw [h]; decide)),
      if_neg (fun h => hc (by rw [h]; decide)), if_neg (fun h => hc (by rw [h]; decide)),
      if_neg (fun h => hc (by rw [h]; decide)), if_neg (fun h => hc (by rw [h]; decide)),
      if_neg (fun h => hc (by rw [h]; decide)), if_neg (fun h => hc (by rw [h]; decide)),
      if_neg (fun h => hc (by rw [h]; decide)), if_neg (fun h => hc (by rw [h]; decide)),
      if_neg (fun h => hc (by rw [h]; decide)), if_neg (fun h => hc (by rw [h]; decide)),
      if_neg (fun h => hc (by rw [h]; decide))]

/-- Witness for C9 on the unrecognized code G95 with no parameters. -/
theorem C9_witness :
    (∀ k v, lookupParam ([] : Params) k = some v → ∃ n d, v = PyLit.fin n d) ∧
    ((∃ pr, execute_command initState ⟨"G95".toList, [], "G95".toList⟩ = .ok pr) ∧
      ("G95".toList ∉ ["G0".toList, "G1".toList, "G2".toList, "G3".toList, "G4".toList,
          "G20".toList, "G21".toList, "G28".toList, "G90".toList, "G91".toList,
          "G92".toList, "M2".toList, "M6".toList] →
        execute_command initState ⟨"G95".toList, [], "G95".toList⟩ =
          .ok ({ initState with command_count := initState.command_count + 1 },
            .unknown "G95".toList))) :=
  ⟨fun k v h => by simp [lookupParam] at h,
    C9_theorem initState ⟨"G95".toList, [], "G95".toList⟩
      (fun k v h => by simp [lookupParam] at h)⟩

lemma processWaypoints_cons (line_num : ℕ) (w : ℝ × ℝ) (rest : List (ℝ × ℝ))
    (angles : List (ℤ × ℤ)) (errors : List ErrEntry) :
    processWaypoints line_num (w :: rest) angles errors =
      match inverse_kinematics ARM_L1 ARM_L2 w.1 w.2 true with
      | .ok t => processWaypoints line_num rest
          (angles ++ [(pyRound (apply_servo_offset t.1 t.2).1,
            pyRound (apply_servo_offset t.1 t.2).2)]) errors
      | .error e => processWaypoints line_num rest angles
          (errors ++ [.ikErr line_num w.1 w.2 e]) := rfl

lemma processWaypoints_spec (line_num : ℕ) (ws : List (ℝ × ℝ))
    (angles : List (ℤ × ℤ)) (errors : List ErrEntry) :
    processWaypoints line_num ws angles errors =
      (angles ++ ws.filterMap waypointPair,
        errors ++ ws.filterMap (waypointErr line_num)) := by
  induction ws generalizing angles errors with
  | nil => simp [processWaypoints]
  | cons w rest ih =>
    rw [processWaypoints_cons]
    cases h : inverse_kinematics ARM_L1 ARM_L2 w.1 w.2 true with
    | ok t =>
      simp only [h]
      rw [ih]
      simp [List.filterMap_cons, waypointPair, waypointErr, h, List.append_assoc]
    | error e =>
      simp only [h]
      rw [ih]
      simp [List.filterMap_cons, waypointPair, waypointErr, h, List.append_assoc]

/-- C7: the per-waypoint pipeline loop appends exactly one actuator pair
for each waypoint whose inverse kinematics succeeds and exactly one error
entry, carrying the originating line number and the offending coordinates,
for each waypoint whose inverse kinematics fails, preserving order; and a
line step that does not end the program never aborts the remaining lines. -/
theorem C7_theorem :
    (∀ (line_num : ℕ) (ws : List (ℝ × ℝ)) (angles : List (ℤ × ℤ))
        (errors : List ErrEntry),
      processWaypoints line_num ws angles errors =
        (angles ++ ws.filterMap waypointPair,
          errors ++ ws.filterMap (waypointErr line_num))) ∧
    (∀ (est : ExporterState) (line_num : ℕ) (l : List Char)
        (rest : List (List Char)),
      (stepLine est line_num l).2 = false →
      processLines est line_num (l :: rest) =
        processLines (stepLine est line_num l).1 (line_num + 1) rest) := by
  refine ⟨processWaypoints_spec, ?_⟩
  intro est line_num l rest h
  rw [show processLines est line_num (l :: rest) =
      (if (stepLine est line_num l).2 then (stepLine est line_num l).1
        else processLines (stepLine est line_num l).1 (line_num + 1) rest) from rfl,
    h]
  simp

lemma stepLine_m6_snd :
    (stepLine ⟨initState, [(SERVO1_HOME, SERVO2_HOME)], []⟩ 1 "M6".toList).2 =
      false := by
  have hs : pyStrip "M6".toList = "M6".toList := by decide
  have hp : parse_line "M6".toList =
      some ⟨['M', '6'], [], ['M', '6']⟩ := by decide
  have he : execute_command initState ⟨['M', '6'], [], ['M', '6']⟩ =
      .ok ({ initState with command_count := 1 }, .toolChange 0) := by
    simp [execute_command, executeDispatch, lookupParam, initState]
  unfold stepLine
  rw [hs, if_neg (by decide), hp]
  simp only [ExporterState.mk.injEq]
  rw [he]
  simp [stepExec]

/-- Witness for C7: the continuation hypothesis discharged on an M6 line. -/
theorem C7_witness :
    (stepLine ⟨initState, [(SERVO1_HOME, SERVO2_HOME)], []⟩ 1 "M6".toList).2 =
      false ∧
    processLines ⟨initState, [(SERVO1_HOME, SERVO2_HOME)], []⟩ 1
        ["M6".toList, "M2".toList] =
      processLines
        (stepLine ⟨initState, [(SERVO1_HOME, SERVO2_HOME)], []⟩ 1 "M6".toList).1
        2 ["M2".toList] :=
  ⟨stepLine_m6_snd,
    C7_theorem.2 ⟨initState, [(SERVO1_HOME, SERVO2_HOME)], []⟩ 1 "M6".toList
      ["M2".toList] stepLine_m6_snd⟩

lemma stepLine_of_ok {est : ExporterState} {ln : ℕ} {l : List Char}
    {c : ParsedCommand} {pr : ParserState × ExecResult}
    (hg : ¬(pyStrip l = [] ∨ (pyStrip l).head? = some ';'))
    (hp : parse_line (pyStrip l) = some c)
    (he : execute_command est.ps c = .ok pr) :
    stepLine est ln l = stepExec est ln (pyStrip l) pr := by
  unfold stepLine
  rw [if_neg hg, hp]
  show (match execute_command est.ps c with
    | Except.error _ =>
      (({ est with
          errors := est.errors ++ [ErrEntry.lineErr ln (pyStrip l)] } :
        ExporterState), false)
    | Except.ok pr => stepExec est ln (pyStrip l) pr) =
      stepExec est ln (pyStrip l) pr
  rw [he]

lemma stepExec_angles_extends (est : ExporterState) (ln : ℕ) (ls : List Char)
    (pr : ParserState × ExecResult) :
    ∃ t, (stepExec est ln ls pr).1.angles = est.angles ++ t := by
  obtain ⟨ps', res⟩ := pr
  cases res with
  | moveLinear ws sp rp =>
    exact ⟨List.filterMap waypointPair ws,
      by simp [stepExec, processWaypoints_spec, resultWaypoints]⟩
  | moveArc ws cen sp cw =>
    exact ⟨List.filterMap waypointPair ws,
      by simp [stepExec, processWaypoints_spec, resultWaypoints]⟩
  | homeMove ws hm =>
    exact ⟨List.filterMap waypointPair ws,
      by simp [stepExec, processWaypoints_spec, resultWaypoints]⟩
  | homeIntermediate ix iy hm =>
    exact ⟨[], by simp [stepExec, processWaypoints_spec, resultWaypoints]⟩
  | dwell d =>
    cases d with
    | fin n dd =>
      cases hl : est.angles.getLast? with
      | none => exact ⟨[], by simp [stepExec, hl]⟩
      | some la =>
        by_cases hq : 0 < finVal n dd
        · exact ⟨List.replicate (pyInt ((finVal n dd : ℝ) * 2)).toNat la,
            by simp [stepExec, hl, hq]⟩
        · exact ⟨[], by simp [stepExec, hl, hq]⟩
    | inf =>
      cases hl : est.angles.getLast? with
      | none => exact ⟨[], by simp [stepExec, hl]⟩
      | some la => exact ⟨[], by simp [stepExec, hl]⟩
    | neginf => exact ⟨[], by simp [stepExec]⟩
    | nan => exact ⟨[], by simp [stepExec]⟩
  | unitsSet u => exact ⟨[], by simp [stepExec]⟩
  | modeSet m => exact ⟨[], by simp [stepExec]⟩
  | setPositionClear => exact ⟨[], by simp [stepExec]⟩
  | setPositionSet np off => exact ⟨[], by simp [stepExec]⟩
  | toolChange t => exact ⟨[], by simp [stepExec]⟩
  | progEnd => exact ⟨[(SERVO1_HOME, SERVO2_HOME)], by simp [stepExec]⟩
  | unknown r => exact ⟨[], by simp [stepExec]⟩

lemma stepLine_angles_extends (est : ExporterState) (ln : ℕ) (l : List Char) :
    ∃ t, (stepLine est ln l).1.angles = est.angles ++ t := by
  by_cases hg : pyStrip l = [] ∨ (pyStrip l).head? = some ';'
  · exact ⟨[], by unfold stepLine; rw [if_pos hg]; simp⟩
  cases hp : parse_line (pyStrip l) with
  | none => exact ⟨[], by unfold stepLine; rw [if_neg hg, hp]; simp⟩
  | some c =>
    cases he : execute_command est.ps c with
    | error e =>
      refine ⟨[], ?_⟩
      unfold stepLine
      rw [if_neg hg, hp]
      show (match execute_command est.ps c with
        | Except.error _ =>
          (({ est with
              errors := est.errors ++ [ErrEntry.lineErr ln (pyStrip l)] } :
            ExporterState), false)
        | Except.ok pr => stepExec est ln (pyStrip l) pr).1.angles =
          est.angles ++ []
      rw [he]
      simp
    | ok pr =>
      rw [stepLine_of_ok hg hp he]
      exact stepExec_angles_extends est ln (pyStrip l) pr

lemma processLines_angles_extends (lines : List (List Char))
    (est : ExporterState) (ln : ℕ) :
    ∃ t, (processLines est ln lines).angles = est.angles ++ t := by
  induction lines generalizing est ln with
  | nil => exact ⟨[], by simp [processLines]⟩
  | cons l rest ih =>
    obtain ⟨t1, h1⟩ := stepLine_angles_extends est ln l
    rw [show processLines est ln (l :: rest) =
        (if (stepLine est ln l).2 then (stepLine est ln l).1
          else processLines (stepLine est ln l).1 (ln + 1) rest) from rfl]
    by_cases hb : (stepLine est ln l).2
    · rw [if_pos hb]
      exact ⟨t1, h1⟩
    · rw [if_neg hb]
      obtain ⟨t2, h2⟩ := ih (stepLine est ln l).1 (ln + 1)
      exact ⟨t1 ++ t2, by rw [h2, h1, List.append_assoc]⟩

lemma parse_line_guard {l : List Char} {c : ParsedCommand}
    (h : parse_line (pyStrip l) = some c) :
    ¬(pyStrip l = [] ∨ (pyStrip l).head? = some ';') := by
  rintro (hx | hx)
  · rw [hx] at h
    exact Option.noConfusion ((show parse_line [] = none by decide) ▸ h)
  · cases hsl : pyStrip l with
    | nil => rw [hsl] at hx; exact Option.noConfusion hx
    | cons a t =>
      rw [hsl] at hx h
      have ha : a = ';' := by simpa using hx
      subst ha
      have : parse_line (';' :: t) = none := by
        simp [parse_line, pyStrip, List.takeWhile_cons]
      rw [this] at h
      exact Option.noConfusion h

/-- C8: every pipeline run seeds the actuator output with the configured
home pair, so the output begins with it; and a line that executes to the
END result appends the home pair as the final output element and stops:
the remaining lines do not influence the result at all. -/
theorem C8_theorem :
    (∀ text : List Char,
      (process_gcode text).1.head? = some (SERVO1_HOME, SERVO2_HOME)) ∧
    (∀ (est : ExporterState) (ln : ℕ) (l : List Char) (rest : List (List Char))
        (c : ParsedCommand) (pr : ParserState × ExecResult),
      parse_line (pyStrip l) = some c →
      execute_command est.ps c = .ok pr →
      pr.2 = .progEnd →
      processLines est ln (l :: rest) =
        { ps := pr.1,
          angles := est.angles ++ [(SERVO1_HOME, SERVO2_HOME)],
          errors := est.errors }) := by
  constructor
  · intro text
    unfold process_gcode
    obtain ⟨t, ht⟩ := processLines_angles_extends (pySplitOn '\n' (pyStrip text))
      ⟨initState, [(SERVO1_HOME, SERVO2_HOME)], []⟩ 1
    simp only [ht]
    rw [List.singleton_append, List.head?_cons]
  · intro est ln l rest c pr hp he hres
    have hg := parse_line_guard hp
    rw [show processLines est ln (l :: rest) =
        (if (stepLine est ln l).2 then (stepLine est ln l).1
          else processLines (stepLine est ln l).1 (ln + 1) rest) from rfl]
    rw [stepLine_of_ok hg hp he]
    obtain ⟨ps', res⟩ := pr
    simp only at hres
    subst hres
    simp [stepExec]

/-- Witness for C8: an M2 line followed by an unprocessed G1 line. -/
theorem C8_witness :
    (parse_line (pyStrip "M2".toList) = some ⟨['M', '2'], [], ['M', '2']⟩ ∧
      execute_command
        (⟨initState, [(SERVO1_HOME, SERVO2_HOME)], []⟩ : ExporterState).ps
        ⟨['M', '2'], [], ['M', '2']⟩ =
        .ok ({ initState with command_count := 1 }, .progEnd)) ∧
    processLines ⟨initState, [(SERVO1_HOME, SERVO2_HOME)], []⟩ 1
        ["M2".toList, "G1 X1".toList] =
      { ps := ({ initState with command_count := 1 }, ExecResult.progEnd).1,
        angles := [(SERVO1_HOME, SERVO2_HOME)] ++ [(SERVO1_HOME, SERVO2_HOME)],
        errors := [] } :=
  ⟨⟨by decide, by simp [execute_command, executeDispatch, initState]⟩,
    C8_theorem.2 ⟨initState, [(SERVO1_HOME, SERVO2_HOME)], []⟩ 1 "M2".toList
      ["G1 X1".toList] ⟨['M', '2'], [], ['M', '2']⟩
      ({ initState with command_count := 1 }, .progEnd)
      (by decide) (by simp [execute_command, executeDispatch, initState]) rfl⟩

lemma updateFeed_current_pos (st : ParserState) (ps : Params) :
    (updateFeed st ps).current_pos = st.current_pos := by
  unfold updateFeed
  rcases lookupParam ps 'F' with _ | v
  · rfl
  · cases v <;> rfl

lemma processLinearMove_spec {st : ParserState} {ps : Params} {rapid : Bool}
    {st' : ParserState} {res : ExecResult}
    (h : processLinearMove st ps rapid = .ok (st', res)) :
    ∃ ext, resolveTarget st ps = .ok ext ∧
      st'.current_pos = (ext.1 - st.offset.1, ext.2 - st.offset.2) ∧
      ∃ ws sp, res = .moveLinear ws sp rapid ∧
        ws.getLast? = some (((ext.1 - st.offset.1 : ℚ) : ℝ),
          ((ext.2 - st.offset.2 : ℚ) : ℝ)) := by
  unfold processLinearMove at h
  cases hrt : resolveTarget st ps with
  | error e =>
    rw [hrt] at h
    simp [Except.instMonad, Except.bind] at h
  | ok ext =>
    rw [hrt] at h
    simp only [Except.instMonad, Except.bind, Except.pure, Except.ok.injEq,
      Prod.mk.injEq] at h
    obtain ⟨hst, hres⟩ := h
    subst hst
    subst hres
    refine ⟨ext, rfl, rfl, ?_⟩
    refine ⟨_, _, rfl, ?_⟩
    rw [updateFeed_current_pos]
    exact interpolate_line_getLast _ _ _ _ _

lemma processArcMove_spec {st : ParserState} {ps : Params} {cw : Bool}
    {st' : ParserState} {res : ExecResult}
    (h : processArcMove st ps cw = .ok (st', res)) :
    ∃ ext i j, resolveTarget st ps = .ok ext ∧
      getFin ps 'I' 0 = .ok i ∧ getFin ps 'J' 0 = .ok j ∧
      st'.current_pos = (ext.1 - st.offset.1, ext.2 - st.offset.2) ∧
      ∃ sp, res = .moveArc
        (interpolate_arc (st.current_pos.1 : ℝ) (st.current_pos.2 : ℝ)
          ((ext.1 - st.offset.1 : ℚ) : ℝ) ((ext.2 - st.offset.2 : ℚ) : ℝ)
          ((st.current_pos.1 + i : ℚ) : ℝ) ((st.current_pos.2 + j : ℚ) : ℝ)
          cw (ARC_SEGMENTS_PER_INCH : ℝ))
        (st.current_pos.1 + i, st.current_pos.2 + j) sp cw := by
  unfold processArcMove at h
  cases hrt : resolveTarget st ps with
  | error e =>
    rw [hrt] at h
    simp [Except.instMonad, Except.bind] at h
  | ok ext =>
    rw [hrt] at h
    cases hi : getFin ps 'I' 0 with
    | error e =>
      rw [hi] at h
      simp [Except.instMonad, Except.bind] at h
    | ok i =>
      rw [hi] at h
      cases hj : getFin ps 'J' 0 with
      | error e =>
        rw [hj] at h
        simp [Except.instMonad, Except.bind] at h
      | ok j =>
        rw [hj] at h
        simp only [Except.instMonad, Except.bind, Except.pure, Except.ok.injEq,
          Prod.mk.injEq] at h
        obtain ⟨hst, hres⟩ := h
        subst hst
        subst hres
        refine ⟨ext, i, j, rfl, rfl, rfl, rfl, (updateFeed st ps).feed_rate, ?_⟩
        rw [updateFeed_current_pos]

lemma processHome_no_params (st : ParserState) (ps : Params)
    (hx : lookupParam ps 'X' = none) (hy : lookupParam ps 'Y' = none) :
    processHome st ps = ({ st with current_pos := st.home_pos },
      .homeMove (interpolate_line (st.current_pos.1 : ℝ) (st.current_pos.2 : ℝ)
        (st.home_pos.1 : ℝ) (st.home_pos.2 : ℝ) 5) st.home_pos) := by
  unfold processHome
  rw [hx, hy]
  simp

lemma resolveTarget_cc (st : ParserState) (n : ℕ) (ps : Params) :
    resolveTarget { st with command_count := n } ps = resolveTarget st ps := rfl

/-- C4 (amended): for G0/G1/G2/G3 the executed command resolves the
external-frame target, subtracts the stored offset, and uses that
internal-frame target both as the interpolation endpoint and as the new
`current_pos`; `G28` (without X/Y) is the exception: it interpolates to the
home position with no offset subtraction. -/
theorem C4_theorem (st : ParserState) (c : ParsedCommand) (st' : ParserState)
    (res : ExecResult) (hok : execute_command st c = .ok (st', res)) :
    ((c.command = "G0".toList ∨ c.command = "G1".toList) →
      ∃ ext, resolveTarget st c.params = .ok ext ∧
        st'.current_pos = (ext.1 - st.offset.1, ext.2 - st.offset.2) ∧
        ∃ ws sp rp, res = .moveLinear ws sp rp ∧
          ws.getLast? = some (((ext.1 - st.offset.1 : ℚ) : ℝ),
            ((ext.2 - st.offset.2 : ℚ) : ℝ))) ∧
    ((c.command = "G2".toList ∨ c.command = "G3".toList) →
      ∃ cw ext i j, resolveTarget st c.params = .ok ext ∧
        getFin c.params 'I' 0 = .ok i ∧ getFin c.params 'J' 0 = .ok j ∧
        st'.current_pos = (ext.1 - st.offset.1, ext.2 - st.offset.2) ∧
        ∃ sp, res = .moveArc
          (interpolate_arc (st.current_pos.1 : ℝ) (st.current_pos.2 : ℝ)
            ((ext.1 - st.offset.1 : ℚ) : ℝ) ((ext.2 - st.offset.2 : ℚ) : ℝ)
            ((st.current_pos.1 + i : ℚ) : ℝ) ((st.current_pos.2 + j : ℚ) : ℝ)
            cw (ARC_SEGMENTS_PER_INCH : ℝ))
          (st.current_pos.1 + i, st.current_pos.2 + j) sp cw) ∧
    (c.command = "G28".toList → lookupParam c.params 'X' = none →
      lookupParam c.params 'Y' = none →
      st'.current_pos = st.home_pos ∧
      ∃ ws, res = .homeMove ws st.home_pos ∧
        ws.getLast? = some ((st.home_pos.1 : ℝ), (st.home_pos.2 : ℝ))) := by
  have hd : executeDispatch { st with command_count := st.command_count + 1 } c =
      .ok (st', res) := hok
  unfold executeDispatch at hd
  refine ⟨?_, ?_, ?_⟩
  · rintro (h | h)
    · rw [if_pos h] at hd
      obtain ⟨ext, h1, h2, ws, sp, h3, h4⟩ := processLinearMove_spec hd
      exact ⟨ext, h1, h2, ws, sp, true, h3, h4⟩
    · rw [if_neg (by rw [h]; decide), if_pos h] at hd
      obtain ⟨ext, h1, h2, ws, sp, h3, h4⟩ := processLinearMove_spec hd
      exact ⟨ext, h1, h2, ws, sp, false, h3, h4⟩
  · rintro (h | h)
    · rw [if_neg (by rw [h]; decide), if_neg (by rw [h]; decide), if_pos h] at hd
      obtain ⟨ext, i, j, h1, h2, h3, h4, sp, h5⟩ := processArcMove_spec hd
      exact ⟨true, ext, i, j, h1, h2, h3, h4, sp, h5⟩
    · rw [if_neg (by rw [h]; decide), if_neg (by rw [h]; decide),
        if_neg (by rw [h]; decide), if_pos h] at hd
      obtain ⟨ext, i, j, h1, h2, h3, h4, sp, h5⟩ := processArcMove_spec hd
      exact ⟨false, ext, i, j, h1, h2, h3, h4, sp, h5⟩
  · intro h hx hy
    rw [if_neg (by rw [h]; decide), if_neg (by rw [h]; decide),
      if_neg (by rw [h]; decide), if_neg (by rw [h]; decide),
      if_neg (by rw [h]; decide), if_neg (by rw [h]; decide),
      if_neg (by rw [h]; decide), if_pos h] at hd
    rw [processHome_no_params _ _ hx hy] at hd
    simp only [Except.ok.injEq, Prod.mk.injEq] at hd
    obtain ⟨hst, hres⟩ := hd
    subst hst
    subst hres
    exact ⟨rfl, _, rfl, interpolate_line_getLast _ _ _ _ _⟩

/-- C4 counterexample: `G28` with a stored offset (1,0) moves to the home
position (6,6) in the internal frame directly; the claimed invariant would
require the internal target to be the external home minus the offset,
(5,6). -/
theorem C4_counterexample :
    execute_command ⟨true, "inches".toList, (2, 2), (1, 0), 2, (6, 6), 0⟩
      ⟨"G28".toList, [], "G28".toList⟩ =
      .ok (⟨true, "inches".toList, (6, 6), (1, 0), 2, (6, 6), 1⟩,
        .homeMove (interpolate_line 2 2 6 6 5) (6, 6)) ∧
    ((6, 6) : ℚ × ℚ) ≠ ((6 - 1 : ℚ), (6 - 0 : ℚ)) := by
  constructor
  · simp [execute_command, executeDispatch, processHome, lookupParam]
  · intro h
    rw [Prod.mk.injEq] at h
    have := h.1
    norm_num at this

/-- Witness for C4: a concrete G1 X2 Y2 from a zero-offset state. -/
theorem C4_witness :
    execute_command ⟨true, "inches".toList, (6, 6), (0, 0), 2, (6, 6), 0⟩
      ⟨"G1".toList, [('X', .fin 2 0), ('Y', .fin 2 0)], "G1 X2 Y2".toList⟩ =
      .ok (⟨true, "inches".toList, (2, 2), (0, 0), 2, (6, 6), 1⟩,
        .moveLinear (interpolate_line 6 6 2 2 5) 2 false) ∧
    ∃ ext, resolveTarget ⟨true, "inches".toList, (6, 6), (0, 0), 2, (6, 6), 0⟩
        [('X', .fin 2 0), ('Y', .fin 2 0)] = .ok ext ∧
      ((⟨true, "inches".toList, (2, 2), (0, 0), 2, (6, 6), 1⟩ :
        ParserState)).current_pos = (ext.1 - 0, ext.2 - 0) ∧
      ∃ ws sp rp,
        (ExecResult.moveLinear (interpolate_line 6 6 2 2 5) 2 false) =
          .moveLinear ws sp rp ∧
        ws.getLast? = some (((ext.1 - 0 : ℚ) : ℝ), ((ext.2 - 0 : ℚ) : ℝ)) := by
  have hok : execute_command ⟨true, "inches".toList, (6, 6), (0, 0), 2, (6, 6), 0⟩
      ⟨"G1".toList, [('X', .fin 2 0), ('Y', .fin 2 0)], "G1 X2 Y2".toList⟩ =
      .ok (⟨true, "inches".toList, (2, 2), (0, 0), 2, (6, 6), 1⟩,
        .moveLinear (interpolate_line 6 6 2 2 5) 2 false) := by
    simp [execute_command, executeDispatch, processLinearMove, resolveTarget,
      updateFeed, getFin, lookupParam, finVal,
      Except.instMonad, Except.bind, Except.pure]
  exact ⟨hok,
    (C4_theorem _ _ _ _ hok).1 (Or.inr rfl)⟩
